import Mathlib

/-
  Verification of the gunicorn HTTP/1.x message parser
  (gunicorn/http/message.py).

  The Python source is shallowly embedded: each definition below mirrors a
  function or code region of message.py, with stateful code rendered as
  explicit state passing and raised exceptions rendered as error results
  that also carry the `must_close` flag at raise time (several error paths
  call force_close() before raising).

  Strings coming off the wire are latin-1 decodes of bytes, so every
  character has code point < 256.  Python's str.lower()/str.upper() are
  modelled by Lean's ASCII String.toLower/String.toUpper; the only string
  comparisons performed after case mapping are against pure-ASCII
  lowercase literals ("chunked", "identity", "", "close", "keep-alive"),
  on which the two case mappings agree for latin-1 input.
-/

/-- Error kinds raised by message.py (gunicorn.http.errors).  Payloads keep
the string the source passes to the exception constructor. -/
inductive HttpError where
  | InvalidHeader (field : String)
  | InvalidHeaderName (name : String)
  | UnsupportedTransferCoding (value : String)
  | LimitRequestHeaders (msg : String)
  | InvalidSchemeHeaders
  | NoMoreData
  | InvalidProxyLine (msg : String)
  | ForbiddenProxyRequest (host : String)
  | InvalidRequestLine (line : String)
  | InvalidRequestMethod (meth : String)
  | InvalidHTTPVersion (v : String)
  | LimitRequestLine (size : Nat) (maxSize : Int)
  deriving DecidableEq, Repr

/-- Configuration fields of the gunicorn config object consumed by
message.py (cfg.*). -/
structure Cfg where
  is_ssl : Bool
  tolerate_dangerous_framing : Bool
  limit_request_fields : Int
  limit_request_field_size : Int
  limit_request_line : Int
  strip_header_spaces : Bool
  secure_scheme_headers : List (String × String)
  deriving DecidableEq, Repr

/-- MAX_REQUEST_LINE = 8190 (message.py line 21). -/
def MAX_REQUEST_LINE : Int := 8190

/-- MAX_HEADERS = 32768 (message.py line 22). -/
def MAX_HEADERS : Int := 32768

/-- DEFAULT_MAX_HEADERFIELD_SIZE = 8190 (message.py line 23). -/
def DEFAULT_MAX_HEADERFIELD_SIZE : Int := 8190

/-- The `self.limit_request_fields` attribute set in Message.__init__
(lines 44-47): out-of-range config values are replaced by MAX_HEADERS. -/
def eff_limit_request_fields (cfg : Cfg) : Int :=
  if cfg.limit_request_fields ≤ 0 ∨ MAX_HEADERS < cfg.limit_request_fields then
    MAX_HEADERS
  else cfg.limit_request_fields

/-- The `self.limit_request_field_size` attribute set in Message.__init__
(lines 48-50): a negative config value is replaced by the default. -/
def eff_limit_request_field_size (cfg : Cfg) : Int :=
  if cfg.limit_request_field_size < 0 then DEFAULT_MAX_HEADERFIELD_SIZE
  else cfg.limit_request_field_size

/-- The `self.max_buffer_headers` attribute set in Message.__init__
(lines 52-55): `limit_request_fields * (max_header_field_size + 2) + 4`,
where `max_header_field_size` is `self.limit_request_field_size or
DEFAULT_MAX_HEADERFIELD_SIZE` (Python `or` substitutes the default when
the normalized field size is 0). -/
def max_buffer_headers (cfg : Cfg) : Int :=
  eff_limit_request_fields cfg *
    ((if eff_limit_request_field_size cfg = 0 then DEFAULT_MAX_HEADERFIELD_SIZE
      else eff_limit_request_field_size cfg) + 2) + 4

/-- Python tuple comparison `(a, b) < (c, d)` used for `self.version < (1, 1)`
(line 170). -/
def versionLt (v w : Nat × Nat) : Bool :=
  v.1 < w.1 ∨ (v.1 = w.1 ∧ v.2 < w.2)

/-- Python tuple comparison `(a, b) <= (c, d)` used for
`self.version <= (1, 0)` (line 210). -/
def versionLe (v w : Nat × Nat) : Bool :=
  v.1 < w.1 ∨ (v.1 = w.1 ∧ v.2 ≤ w.2)

/-- The body readers constructed by set_body_reader: Body(ChunkedReader(..)),
Body(LengthReader(.., n)) and Body(EOFReader(..)) (lines 182, 195, 197, 405).
Only the reader kind and the length bound are observable here; the actual
byte consumption is an external collaborator. -/
inductive BodyReader where
  | ChunkedReader
  | LengthReader (n : Nat)
  | EOFReader
  deriving DecidableEq, Repr

/-- Outcome of set_body_reader: either a constructed body reader or a raised
error, in both cases together with the final value of `self.must_close`
(force_close() may run before a raise). -/
inductive BodyOutcome where
  | reader (r : BodyReader) (must_close : Bool)
  | err (e : HttpError) (must_close : Bool)
  deriving DecidableEq, Repr

/-- State tracked by the header scan of set_body_reader (lines 131-132):
the `chunked` flag, the saved CONTENT-LENGTH string, plus `self.must_close`. -/
structure ScanState where
  chunked : Bool
  content_length : Option String
  must_close : Bool
  deriving DecidableEq, Repr

/-- The initial scan state: `chunked = False`, `content_length = None`
(lines 131-132) and `must_close = False` from Message.__init__ (line 41). -/
def initScan : ScanState := ⟨false, none, false⟩

/-- Python str.isspace for the latin-1 range, the separator class of
str.split() and str.strip(): code points 9-13, 28-31, 32, 133 (NEL) and
160 (NBSP). -/
def isPyWS (c : Char) : Bool :=
  (9 ≤ c.toNat ∧ c.toNat ≤ 13) ∨ (28 ≤ c.toNat ∧ c.toNat ≤ 32) ∨
    c.toNat = 133 ∨ c.toNat = 160

/-- Python str.lower().  Only ASCII letters change case; for latin-1 input
the non-ASCII letters Python would also map never influence the
comparisons performed by message.py (all against ASCII literals). -/
def pyLower (s : String) : String :=
  String.mk (s.data.map Char.toLower)

/-- Python str.upper(), with the same ASCII restriction as pyLower. -/
def pyUpper (s : String) : String :=
  String.mk (s.data.map Char.toUpper)

/-- Python str.strip() with no argument: remove leading and trailing
whitespace. -/
def pyStrip (s : String) : String :=
  String.mk (((s.data.dropWhile isPyWS).reverse.dropWhile isPyWS).reverse)

/-- Python str.split(sep) for a one-character separator: split at every
occurrence, keeping empty pieces. -/
def splitOnCharL (sep : Char) : List Char → List (List Char)
  | [] => [[]]
  | c :: rest =>
    if c = sep then [] :: splitOnCharL sep rest
    else
      match splitOnCharL sep rest with
      | t :: ts => (c :: t) :: ts
      | [] => [[c]]

/-- Python str.split("::"): split at every non-overlapping occurrence of a
double colon, scanning left to right, keeping empty pieces. -/
def splitDoubleColon : List Char → List (List Char)
  | [] => [[]]
  | ':' :: ':' :: rest => [] :: splitDoubleColon rest
  | c :: rest =>
    match splitDoubleColon rest with
    | t :: ts => (c :: t) :: ts
    | [] => [[c]]

/-- Split at the first occurrence of a character: the part before it and,
when the character occurs, the part after it. -/
def splitFirst (sep : Char) : List Char → List Char × Option (List Char)
  | [] => ([], none)
  | c :: rest =>
    if c = sep then ([], some rest)
    else
      let (a, b) := splitFirst sep rest
      (c :: a, b)

/-- The body of the header scan loop of Message.set_body_reader (lines
134-164), for one header field.  The header is matched on its normalized
name; TRANSFER-ENCODING values are compared after value.lower().  An error
result carries the value of must_close at raise time (force_close() runs
before the raise on the transfer-coding paths). -/
def te_cl_step (cfg : Cfg) (st : ScanState) (name value : String) :
    Except (HttpError × Bool) ScanState :=
  if name = "CONTENT-LENGTH" then
    match st.content_length with
    | some _ => .error (.InvalidHeader "CONTENT-LENGTH", st.must_close)
    | none => .ok { st with content_length := some value }
  else if name = "TRANSFER-ENCODING" then
    if pyLower value = "chunked" then
      if st.chunked then .error (.InvalidHeader "TRANSFER-ENCODING", st.must_close)
      else .ok { st with chunked := true }
    else if pyLower value = "identity" then
      if st.chunked then .error (.InvalidHeader "TRANSFER-ENCODING", st.must_close)
      else .ok st
    else if pyLower value = "" then
      let st' := { st with must_close := true }
      if cfg.tolerate_dangerous_framing then .ok st'
      else .error (.UnsupportedTransferCoding value, st'.must_close)
    else
      let st' := { st with must_close := true }
      .error (.UnsupportedTransferCoding value, st'.must_close)
  else .ok st

/-- The header scan loop of Message.set_body_reader (lines 134-164):
`te_cl_step` applied to each header in order, stopping at the first raise. -/
def te_cl_scan (cfg : Cfg) : List (String × String) → ScanState →
    Except (HttpError × Bool) ScanState
  | [], st => .ok st
  | (name, value) :: rest, st =>
    match te_cl_step cfg st name value with
    | .ok st' => te_cl_scan cfg rest st'
    | .error e => .error e

/-- Python str.isnumeric restricted to latin-1 strings: true when the string
is nonempty and every character is either an ASCII digit or one of the
latin-1 numeric characters U+00B2, U+00B3, U+00B9, U+00BC, U+00BD, U+00BE
(superscripts and vulgar fractions). -/
def pyIsNumericLatin1 (s : String) : Bool :=
  ¬ s.toList = [] ∧ s.toList.all (fun c =>
    c.isDigit ∨ c = Char.ofNat 178 ∨ c = Char.ofNat 179 ∨ c = Char.ofNat 185 ∨
    c = Char.ofNat 188 ∨ c = Char.ofNat 189 ∨ c = Char.ofNat 190)

/-- Value of a string of ASCII decimal digits. -/
def digitsVal (l : List Char) : Nat :=
  l.foldl (fun a c => 10 * a + (c.toNat - 48)) 0

/-- The CONTENT-LENGTH conversion of set_body_reader lines 184-193: the
value must satisfy str.isnumeric, and then int() must succeed.  Among
latin-1 numeric characters int() accepts exactly the ASCII digits (the
superscript and fraction characters raise ValueError, which line 189
catches and turns into the same InvalidHeader).  The resulting integer is
necessarily non-negative, so the `content_length < 0` check of line 192
cannot fire. -/
def pyContentLength (s : String) : Option Nat :=
  if pyIsNumericLatin1 s then
    if s.toList.all (fun c => c.isDigit) then some (digitsVal s.toList)
    else none
  else none

/-- The chunked-resolution step of Message.set_body_reader for the
content-length conflict (lines 175-182): with `chunked` set and a
Content-Length present the connection is force-closed and the message is
rejected unless cfg.tolerate_dangerous_framing. -/
def chunkedResolve (cfg : Cfg) (st : ScanState) : BodyOutcome :=
  match st.content_length with
  | some _ =>
    let st' := { st with must_close := true }
    if cfg.tolerate_dangerous_framing then .reader .ChunkedReader st'.must_close
    else .err (.InvalidHeader "CONTENT-LENGTH") st'.must_close
  | none => .reader .ChunkedReader st.must_close

/-- Message.set_body_reader (lines 130-197): scan the headers, then resolve
the framing.  The outcome records the reader or the raised error, and the
final must_close flag. -/
def message_set_body_reader (cfg : Cfg) (version : Nat × Nat)
    (headers : List (String × String)) : BodyOutcome :=
  match te_cl_scan cfg headers initScan with
  | .error (e, mc) => .err e mc
  | .ok st =>
    if st.chunked then
      if versionLt version (1, 1) then
        let st' := { st with must_close := true }
        if cfg.tolerate_dangerous_framing then chunkedResolve cfg st'
        else .err (.InvalidHeader "TRANSFER-ENCODING") st'.must_close
      else chunkedResolve cfg st
    else
      match st.content_length with
      | some v =>
        match pyContentLength v with
        | some n => .reader (.LengthReader n) st.must_close
        | none => .err (.InvalidHeader "CONTENT-LENGTH") st.must_close
      | none => .reader .EOFReader st.must_close

/-- Request.set_body_reader (lines 402-405): run the base resolution, then
replace an EOFReader body by LengthReader(0). -/
def request_set_body_reader (cfg : Cfg) (version : Nat × Nat)
    (headers : List (String × String)) : BodyOutcome :=
  match message_set_body_reader cfg version headers with
  | .reader .EOFReader mc => .reader (.LengthReader 0) mc
  | r => r

/-- The CONNECTION header inspection of Message.should_close (lines 202-209):
the first CONNECTION header decides (close / keep-alive), any other value
breaks out of the loop; `none` means fall through to the version check. -/
def connectionDecision : List (String × String) → Option Bool
  | [] => none
  | (h, v) :: rest =>
    if h = "CONNECTION" then
      let v' := pyStrip (pyLower v)
      if v' = "close" then some true
      else if v' = "keep-alive" then some false
      else none
    else connectionDecision rest

/-- Message.should_close (lines 199-210). -/
def should_close (must_close : Bool) (headers : List (String × String))
    (version : Nat × Nat) : Bool :=
  if must_close then true
  else
    match connectionDecision headers with
    | some b => b
    | none => versionLe version (1, 0)

/-- The first CONNECTION header of a header list, as located by the loop of
should_close. -/
def firstConnection (headers : List (String × String)) : Option (String × String) :=
  headers.find? (fun p => p.1 == "CONNECTION")

/-- State of the trusted-scheme bookkeeping inside Message.parse_headers:
`self.scheme` and the local `scheme_header` flag (line 75). -/
structure SchemeState where
  scheme : String
  scheme_header : Bool
  deriving DecidableEq, Repr

/-- The scheme-header handling of Message.parse_headers (lines 116-124),
executed once per parsed logical header field in list order.  `ssh` is the
secure_scheme_headers mapping in effect for this parse pass: the
configured mapping when trusted-scheme detection is enabled for the peer,
and empty otherwise (lines 75-80). -/
def scheme_step (ssh : List (String × String)) (st : SchemeState)
    (name value : String) : Except HttpError SchemeState :=
  match List.lookup name ssh with
  | none => .ok st
  | some secureValue =>
    let scheme := if value = secureValue then "https" else "http"
    if st.scheme_header then
      if ¬ scheme = st.scheme then .error .InvalidSchemeHeaders
      else .ok st
    else .ok ⟨scheme, true⟩

/-- The trusted-scheme bookkeeping of one whole parse_headers pass:
`scheme_step` applied to the parsed (name, value) fields in order. -/
def scheme_scan (ssh : List (String × String)) :
    List (String × String) → SchemeState → Except HttpError SchemeState
  | [], st => .ok st
  | (n, v) :: rest, st =>
    match scheme_step ssh st n v with
    | .ok st' => scheme_scan ssh rest st'
    | .error e => .error e

/-- The scheme each matching header derives (lines 117-118): "https" when
the value equals the configured secure value, otherwise "http";
non-matching headers derive nothing. -/
def derivedSchemes (ssh : List (String × String))
    (headers : List (String × String)) : List String :=
  headers.filterMap
    (fun p => (List.lookup p.1 ssh).map (fun sv => if p.2 = sv then "https" else "http"))

/-- Accumulator pass for the token list of Python str.split(): `acc` holds
the characters of the current token in reverse. -/
def wsTokensAux : List Char → List Char → List (List Char)
  | [], acc => if acc = [] then [] else [acc.reverse]
  | c :: rest, acc =>
    if isPyWS c then
      if acc = [] then wsTokensAux rest []
      else acc.reverse :: wsTokensAux rest []
    else wsTokensAux rest (c :: acc)

/-- Token list of Python str.split() (split on whitespace runs, no empty
tokens). -/
def wsTokens (l : List Char) : List (List Char) :=
  wsTokensAux l []

/-- Python line.split() used by parse_proxy_protocol (line 331). -/
def pySplitWs (s : String) : List String :=
  (wsTokens s.toList).map (fun t => String.mk t)

/-- The whitespace class of Python bytes.split (b" \t\n\r\x0b\x0c"): the
ASCII bytes 0x09-0x0D and 0x20 only.  Unlike the str class isPyWS it does
NOT contain 0x1C-0x1F, 0x85 or 0xA0. -/
def isPyBytesWS (c : Char) : Bool :=
  (9 ≤ c.toNat ∧ c.toNat ≤ 13) ∨ c.toNat = 32

/-- Python line_bytes.split(None, 2) used by parse_request_line (line 376):
a BYTES split (the request line has not been decoded yet), so the
separator class is the ASCII whitespace bytes isPyBytesWS; at most two
splits on whitespace runs; leading whitespace and the whitespace before
the remainder are consumed, the remainder is kept verbatim (its trailing
whitespace included). -/
def pySplitN2 (s : String) : List String :=
  let l0 := s.toList.dropWhile isPyBytesWS
  if l0 = [] then []
  else
    let t1 := l0.takeWhile (fun c => !(isPyBytesWS c))
    let r1 := (l0.dropWhile (fun c => !(isPyBytesWS c))).dropWhile isPyBytesWS
    if r1 = [] then [String.mk t1]
    else
      let t2 := r1.takeWhile (fun c => !(isPyBytesWS c))
      let r2 := (r1.dropWhile (fun c => !(isPyBytesWS c))).dropWhile isPyBytesWS
      if r2 = [] then [String.mk t1, String.mk t2]
      else [String.mk t1, String.mk t2, String.mk r2]

/-- Membership in the character class of METH_RE = `[A-Z0-9$-_.]` (line 26).
Note that `$-_` inside a character class is a RANGE, the code points 0x24
('$') through 0x5F ('_'); it subsumes A-Z, 0-9 and '.', so the class is
exactly that range. -/
def methCharOk (c : Char) : Bool :=
  ('A' ≤ c ∧ c ≤ 'Z') ∨ ('0' ≤ c ∧ c ≤ '9') ∨ ('$' ≤ c ∧ c ≤ '_') ∨ c = '.'

/-- METH_RE.match(s) (line 381): re.match anchors only at the start, so the
pattern `[A-Z0-9$-_.]{3,20}` succeeds exactly when at least 3 (and then up
to 20, which does not affect success) leading characters are in the
class.  Characters after the match are unconstrained. -/
def methReMatch (s : String) : Bool :=
  3 ≤ min (s.toList.takeWhile methCharOk).length 20

/-- VERSION_RE.match(s) for `HTTP/(\d+)\.(\d+)` (lines 27, 397): a prefix
match returning the two digit-group values; trailing characters after the
minor version are unconstrained. -/
def versionReMatch (s : String) : Option (Nat × Nat) :=
  let l := s.toList
  if l.take 5 = ['H', 'T', 'T', 'P', '/'] then
    let rest := l.drop 5
    let d1 := rest.takeWhile Char.isDigit
    let rest2 := rest.dropWhile Char.isDigit
    if d1 = [] then none
    else
      match rest2 with
      | '.' :: rest3 =>
        let d2 := rest3.takeWhile Char.isDigit
        if d2 = [] then none else some (digitsVal d1, digitsVal d2)
      | _ => none
  else none

/-- Modelled from the spec: gunicorn.util.split_request_uri, the external
URI-splitter delegated to by parse_request_line (section 4.3 of the spec:
"Target is delegated to the external URI-splitter to produce
path/query/fragment").  For the origin-form targets exercised here it
splits the fragment off at the first '#', the query at the first '?' of
the remainder, and does not fail. -/
def split_request_uri (uri : String) : Option (String × String × String) :=
  let (beforeHash, afterHash) := splitFirst '#' uri.data
  let fragment := match afterHash with | some f => f | none => []
  let (path, query) :=
    match splitFirst '?' beforeHash with
    | (p, some q) => (p, q)
    | (p, none) => (p, [])
  some (String.mk path, String.mk query, String.mk fragment)

/-- The result of Request.parse_request_line: method (uppercased), raw
target, path/query/fragment, and the version pair. -/
structure ReqLine where
  method : String
  uri : String
  path : String
  query : String
  fragment : String
  version : Nat × Nat
  deriving DecidableEq, Repr

/-- Request.parse_request_line (lines 375-400). -/
def parse_request_line (line : String) : Except HttpError ReqLine :=
  match pySplitN2 line with
  | [m, u, vtok] =>
    if ¬ methReMatch m then .error (.InvalidRequestMethod m)
    else
      match split_request_uri u with
      | none => .error (.InvalidRequestLine line)
      | some (path, query, fragment) =>
        match versionReMatch vtok with
        | none => .error (.InvalidHTTPVersion vtok)
        | some ver => .ok ⟨pyUpper m, u, path, query, fragment, ver⟩
  | _ => .error (.InvalidRequestLine line)

/-- Hexadecimal digit, for IPv6 groups. -/
def isHexDig (c : Char) : Bool :=
  c.isDigit ∨ ('a' ≤ c ∧ c ≤ 'f') ∨ ('A' ≤ c ∧ c ≤ 'F')

/-- One octet of a dotted-quad IPv4 literal as accepted by
socket.inet_pton(AF_INET): 1-3 decimal digits, value at most 255, no
leading zero. -/
def octetOk : List Char → Bool
  | [] => false
  | c :: rest =>
    (c :: rest).all Char.isDigit ∧ (c :: rest).length ≤ 3 ∧
      digitsVal (c :: rest) ≤ 255 ∧ (rest = [] ∨ ¬ c = '0')

/-- Dotted-quad check on a character list. -/
def ipv4ValidChars (l : List Char) : Bool :=
  match splitOnCharL '.' l with
  | [a, b, c, d] => octetOk a ∧ octetOk b ∧ octetOk c ∧ octetOk d
  | _ => false

/-- socket.inet_pton(AF_INET, s) success: a strict dotted quad. -/
def ipv4Valid (s : String) : Bool :=
  ipv4ValidChars s.data

/-- One hexadecimal group of an IPv6 literal: 1-4 hex digits. -/
def hexGroupOk (g : List Char) : Bool :=
  ¬ g = [] ∧ g.length ≤ 4 ∧ g.all isHexDig

/-- Weight of a run of IPv6 groups: a hex group counts 1; a dotted-quad
group (embedded IPv4) counts 2 and is only allowed as the last group of a
run that ends the address. -/
def ipv6GroupsWeight (v4AtEnd : Bool) : List (List Char) → Option Nat
  | [] => some 0
  | [g] =>
    if g.contains '.' then
      if v4AtEnd ∧ ipv4ValidChars g then some 2 else none
    else if hexGroupOk g then some 1 else none
  | g :: rest =>
    if hexGroupOk g then (ipv6GroupsWeight v4AtEnd rest).map (· + 1) else none

/-- socket.inet_pton(AF_INET6, s) success: colon-separated hex groups
totalling weight 8, or, with a single "::" compression, two runs of total
weight at most 7; an embedded dotted quad may only end the address. -/
def ipv6Valid (s : String) : Bool :=
  match splitDoubleColon s.data with
  | [whole] =>
    match ipv6GroupsWeight true (splitOnCharL ':' whole) with
    | some w => w = 8
    | none => false
  | [l, r] =>
    let lg := if l = [] then [] else splitOnCharL ':' l
    let rg := if r = [] then [] else splitOnCharL ':' r
    match ipv6GroupsWeight false lg, ipv6GroupsWeight true rg with
    | some wl, some wr => wl + wr ≤ 7
    | _, _ => false
  | _ => false

/-- Well-formedness of the digit part accepted by Python int(): ASCII
digits with single underscores allowed only between digits (PEP 515). -/
def underscoreDigitsOk : List Char → Bool
  | [] => true
  | '_' :: rest =>
    match rest with
    | d :: _ => d.isDigit ∧ underscoreDigitsOk rest
    | [] => false
  | c :: rest => c.isDigit ∧ underscoreDigitsOk rest

/-- Unsigned digit run accepted by Python int(): nonempty, starts with a
digit, underscores only between digits; value ignores the underscores. -/
def pyUDigits (l : List Char) : Option Nat :=
  match l with
  | [] => none
  | c :: _ =>
    if c.isDigit ∧ underscoreDigitsOk l then
      some (digitsVal (l.filter (fun x => ¬ x = '_')))
    else none

/-- Python int(s) in base 10 on a latin-1 token as produced by str.split()
(so without surrounding whitespace): an optional sign followed by digits
with single underscores allowed between digits.  No other latin-1
character is accepted by int(). -/
def pyIntDec (s : String) : Option Int :=
  match s.toList with
  | '+' :: rest => (pyUDigits rest).map (fun n => (n : Int))
  | '-' :: rest => (pyUDigits rest).map (fun n => -(n : Int))
  | l => (pyUDigits l).map (fun n => (n : Int))

/-- The proxy_protocol_info dictionary set by parse_proxy_protocol
(lines 367-373). -/
structure ProxyInfo where
  proxy_protocol : String
  client_addr : String
  client_port : Int
  proxy_addr : String
  proxy_port : Int
  deriving DecidableEq, Repr

/-- Request.parse_proxy_protocol (lines 330-373).  The error payloads keep
the strings the source formats into InvalidProxyLine (the quote characters
around the protocol name are omitted). -/
def parse_proxy_protocol (line : String) : Except HttpError ProxyInfo :=
  match pySplitWs line with
  | [_, proto, s_addr, d_addr, spTok, dpTok] =>
    if ¬ (proto = "TCP4" ∨ proto = "TCP6") then
      .error (.InvalidProxyLine ("protocol " ++ proto ++ " not supported"))
    else if proto = "TCP4" ∧ ¬ (ipv4Valid s_addr ∧ ipv4Valid d_addr) then
      .error (.InvalidProxyLine line)
    else if proto = "TCP6" ∧ ¬ (ipv6Valid s_addr ∧ ipv6Valid d_addr) then
      .error (.InvalidProxyLine line)
    else
      match pyIntDec spTok, pyIntDec dpTok with
      | some s_port, some d_port =>
        if ¬ (0 ≤ s_port ∧ s_port ≤ 65535 ∧ 0 ≤ d_port ∧ d_port ≤ 65535) then
          .error (.InvalidProxyLine ("invalid port " ++ line))
        else .ok ⟨proto, s_addr, s_port, d_addr, d_port⟩
      | _, _ => .error (.InvalidProxyLine ("invalid port " ++ line))
  | _ => .error (.InvalidProxyLine line)

/-- A port token as described by the claim for C9: a base-10 integer in
[0, 65535], i.e. a nonempty decimal digit string of value at most 65535.
This definition follows the claim's words, for comparison with the code's
behaviour. -/
def portTokenSpecValid (t : String) : Bool :=
  ¬ t.toList = [] ∧ t.toList.all Char.isDigit ∧ digitsVal t.toList ≤ 65535

/-- The acceptance condition claimed for parse_proxy_protocol in C9,
following the claim's words: exactly 6 whitespace-separated tokens whose
protocol tag is TCP4 or TCP6, addresses valid literals of the matching
family, and port tokens base-10 integers in [0, 65535]. -/
def proxyLineSpecValid (line : String) : Bool :=
  match pySplitWs line with
  | [_, proto, s_addr, d_addr, spTok, dpTok] =>
    ((proto = "TCP4" ∧ ipv4Valid s_addr ∧ ipv4Valid d_addr) ∨
     (proto = "TCP6" ∧ ipv6Valid s_addr ∧ ipv6Valid d_addr)) ∧
    portTokenSpecValid spTok ∧ portTokenSpecValid dpTok
  | _ => false

/-- Test for the header terminator b"\r\n\r\n" at the head of the buffer. -/
def startsTerm (l : List Char) : Bool :=
  decide (l.take 4 = ['\r', '\n', '\r', '\n'])

/-- data.find(b"\r\n\r\n") >= 0 (lines 259, 263): the buffer contains the
blank-line terminator somewhere. -/
def hasTerm : List Char → Bool
  | [] => false
  | c :: rest => startsTerm (c :: rest) || hasTerm rest

/-- data[:2] == b"\r\n" (lines 261, 264): `done`, an empty header block. -/
def startsCrlf (l : List Char) : Bool :=
  decide (l.take 2 = ['\r', '\n'])

/-- The header-accumulation loop of Request.parse (lines 262-272): starting
from the residue left after the request line, pull chunks from the
unreader until the buffer contains b"\r\n\r\n" (or starts with b"\r\n"),
raising LimitRequestHeaders("max buffer headers") as soon as a pull grows
the buffer past max_buffer_headers.  An empty read or running out of
chunks is get_data's NoMoreData (lines 231-236). -/
def header_accum (bound : Int) : List (List Char) → List Char →
    Except HttpError (List Char)
  | chunks, data =>
    if hasTerm data ∨ startsCrlf data then .ok data
    else
      match chunks with
      | [] => .error .NoMoreData
      | c :: cs =>
        if c = [] then .error .NoMoreData
        else
          let data' := data ++ c
          if bound < (data'.length : Int) then
            .error (.LimitRequestHeaders "max buffer headers")
          else header_accum bound cs data'

/-- A tolerant configuration (tolerate_dangerous_framing on), used by
concrete witnesses. -/
def cfgTolerOn : Cfg := ⟨false, true, 100, 8190, 4094, false, []⟩

/-- A strict configuration (tolerate_dangerous_framing off), used by
concrete witnesses. -/
def cfgTolerOff : Cfg := ⟨false, false, 100, 8190, 4094, false, []⟩

/-- A configuration with tiny header limits (one field of size one), used
by the C10 witness; its max_buffer_headers is 1 * (1 + 2) + 4 = 7. -/
def cfgTiny : Cfg := ⟨false, false, 1, 1, 10, false, []⟩

/-- Scanning a concatenation runs the scans in sequence. -/
theorem te_cl_scan_append (cfg : Cfg) (a b : List (String × String)) (st : ScanState) :
    te_cl_scan cfg (a ++ b) st =
      match te_cl_scan cfg a st with
      | .ok st' => te_cl_scan cfg b st'
      | .error e => .error e := by
  induction a generalizing st with
  | nil => rfl
  | cons p rest ih =>
    obtain ⟨n, v⟩ := p
    simp only [List.cons_append, te_cl_scan]
    cases te_cl_step cfg st n v with
    | ok st' => exact ih st'
    | error e => rfl

/-- A header that is neither CONTENT-LENGTH nor TRANSFER-ENCODING leaves the
scan state unchanged. -/
theorem te_cl_step_other (cfg : Cfg) (st : ScanState) (n v : String)
    (h1 : ¬ n = "CONTENT-LENGTH") (h2 : ¬ n = "TRANSFER-ENCODING") :
    te_cl_step cfg st n v = .ok st := by
  simp [te_cl_step, h1, h2]

/-- A list of headers none of which is CONTENT-LENGTH or TRANSFER-ENCODING
scans to the unchanged state. -/
theorem te_cl_scan_other (cfg : Cfg) (l : List (String × String)) (st : ScanState)
    (h : ∀ p ∈ l, ¬ p.1 = "CONTENT-LENGTH" ∧ ¬ p.1 = "TRANSFER-ENCODING") :
    te_cl_scan cfg l st = .ok st := by
  induction l generalizing st with
  | nil => rfl
  | cons p rest ih =>
    obtain ⟨n, v⟩ := p
    obtain ⟨h1, h2⟩ := h (n, v) (List.mem_cons_self _ _)
    simp only [te_cl_scan, te_cl_step_other cfg st n v h1 h2]
    exact ih st (fun q hq => h q (List.mem_cons_of_mem _ hq))

/-- Effect of one successful scan step on the recorded content length. -/
theorem te_cl_step_cl_effect (cfg : Cfg) (st : ScanState) (n v : String)
    (st' : ScanState) (h : te_cl_step cfg st n v = .ok st') :
    (n = "CONTENT-LENGTH" ∧ st.content_length = none ∧ st'.content_length = some v) ∨
    (¬ n = "CONTENT-LENGTH" ∧ st'.content_length = st.content_length) := by
  by_cases h1 : n = "CONTENT-LENGTH"
  · left
    refine ⟨h1, ?_⟩
    subst h1
    cases hcl : st.content_length with
    | some w => simp [te_cl_step, hcl] at h
    | none =>
      simp only [te_cl_step, hcl, if_pos rfl, if_true, Except.ok.injEq] at h
      subst h
      exact ⟨rfl, rfl⟩
  · right
    refine ⟨h1, ?_⟩
    simp only [te_cl_step, if_neg h1] at h
    by_cases h2 : n = "TRANSFER-ENCODING"
    · simp only [if_pos h2] at h
      split_ifs at h <;> simp only [Except.ok.injEq] at h <;> subst h <;> rfl
    · simp only [if_neg h2, Except.ok.injEq] at h
      subst h
      rfl

/-- A successful scan has seen at most one CONTENT-LENGTH header, counting
one already recorded in the incoming state. -/
theorem te_cl_scan_ok_cl_count (cfg : Cfg) (l : List (String × String))
    (st st' : ScanState) (h : te_cl_scan cfg l st = .ok st') :
    (l.filter (fun p => p.1 == "CONTENT-LENGTH")).length +
      (if st.content_length.isSome then 1 else 0) ≤ 1 := by
  induction l generalizing st with
  | nil =>
    rcases hcl : st.content_length with _ | w <;> simp [hcl]
  | cons p rest ih =>
    obtain ⟨n, v⟩ := p
    simp only [te_cl_scan] at h
    cases hstep : te_cl_step cfg st n v with
    | error e => rw [hstep] at h; simp at h
    | ok st1 =>
      rw [hstep] at h
      rcases te_cl_step_cl_effect cfg st n v st1 hstep with ⟨hn, hnone, hsome⟩ | ⟨hn, hkeep⟩
      · have hrest := ih st1 h
        rw [hsome] at hrest
        simp only [Option.isSome_some, if_true] at hrest
        subst hn
        simp only [List.filter_cons, beq_self_eq_true, if_true, List.length_cons, hnone,
          Option.isSome_none, Bool.false_eq_true, if_false]
        omega
      · have hrest := ih st1 h
        rw [hkeep] at hrest
        have hbeq : ((n, v).1 == "CONTENT-LENGTH") = false := by
          simp only [beq_eq_false_iff_ne, ne_eq]
          exact hn
        simpa [List.filter_cons, hbeq] using hrest

/-- Claim C1, counterexample to the claim as stated.  For an HTTP/1.0
message whose headers carry both a chunked Transfer-Encoding and a
Content-Length, with tolerate_dangerous_framing off, set_body_reader does
force must_close but raises InvalidHeader("TRANSFER-ENCODING") — from the
earlier `version < (1, 1)` check of lines 170-174 — not the claimed
InvalidHeader("CONTENT-LENGTH"). -/
theorem c1_counterexample :
    message_set_body_reader cfgTolerOff (1, 0)
        [("TRANSFER-ENCODING", "chunked"), ("CONTENT-LENGTH", "5")] =
      .err (.InvalidHeader "TRANSFER-ENCODING") true ∧
    ¬ message_set_body_reader cfgTolerOff (1, 0)
        [("TRANSFER-ENCODING", "chunked"), ("CONTENT-LENGTH", "5")] =
      .err (.InvalidHeader "CONTENT-LENGTH") true := by
  constructor
  · rfl
  · decide

/-- Claim C1 (amended).  For every message whose header scan establishes
chunked Transfer-Encoding and which also carries a Content-Length header,
set_body_reader forces must_close = true; when tolerate_dangerous_framing
is on it proceeds with framing = Chunked (any HTTP version); when the
toggle is off it raises InvalidHeader("CONTENT-LENGTH") provided the
version is at least (1, 1) — for versions below (1, 1) the earlier
version check raises InvalidHeader("TRANSFER-ENCODING") first, must_close
still being forced. -/
theorem c1_chunked_with_content_length (cfg : Cfg) (ver : Nat × Nat)
    (hs : List (String × String)) (st : ScanState) (v : String)
    (hscan : te_cl_scan cfg hs initScan = .ok st)
    (hch : st.chunked = true) (hcl : st.content_length = some v) :
    (cfg.tolerate_dangerous_framing = true →
      message_set_body_reader cfg ver hs = .reader .ChunkedReader true) ∧
    (cfg.tolerate_dangerous_framing = false → versionLt ver (1, 1) = false →
      message_set_body_reader cfg ver hs = .err (.InvalidHeader "CONTENT-LENGTH") true) ∧
    (cfg.tolerate_dangerous_framing = false → versionLt ver (1, 1) = true →
      message_set_body_reader cfg ver hs = .err (.InvalidHeader "TRANSFER-ENCODING") true) := by
  refine ⟨?_, ?_, ?_⟩
  · intro htol
    simp only [message_set_body_reader, hscan]
    by_cases hv : versionLt ver (1, 1) = true <;>
      simp [hch, hv, htol, chunkedResolve, hcl]
  · intro htol hver
    have hver' : versionLt ver 1 = false := hver
    simp only [message_set_body_reader, hscan]
    simp [hch, hver, hver', htol, chunkedResolve, hcl]
  · intro htol hver
    have hver' : versionLt ver 1 = true := hver
    simp only [message_set_body_reader, hscan]
    simp [hch, hver, hver', htol]

/-- Witness for C1 at a concrete input: chunked plus Content-Length with the
toggle on proceeds as Chunked with must_close forced. -/
theorem c1_witness :
    message_set_body_reader cfgTolerOn (1, 1)
        [("TRANSFER-ENCODING", "chunked"), ("CONTENT-LENGTH", "5")] =
      .reader .ChunkedReader true :=
  (c1_chunked_with_content_length cfgTolerOn (1, 1)
      [("TRANSFER-ENCODING", "chunked"), ("CONTENT-LENGTH", "5")]
      ⟨true, some "5", false⟩ "5" (by rfl) rfl rfl).1 rfl

/-- Claim C2.  A header list with two or more CONTENT-LENGTH fields never
resolves a body reader: set_body_reader always raises; and on encountering
the second occurrence — i.e. whenever the scan of the headers before it
succeeds having recorded a first CONTENT-LENGTH — the error raised is
InvalidHeader("CONTENT-LENGTH"), regardless of whether the two values are
equal or different. -/
theorem c2_duplicate_content_length (cfg : Cfg) (ver : Nat × Nat) :
    (∀ (pre rest : List (String × String)) (v2 : String) (st : ScanState) (v1 : String),
      te_cl_scan cfg pre initScan = .ok st → st.content_length = some v1 →
      message_set_body_reader cfg ver (pre ++ ("CONTENT-LENGTH", v2) :: rest) =
        .err (.InvalidHeader "CONTENT-LENGTH") st.must_close) ∧
    (∀ hs : List (String × String),
      2 ≤ (hs.filter (fun p => p.1 == "CONTENT-LENGTH")).length →
      ∃ e mc, message_set_body_reader cfg ver hs = .err e mc) := by
  constructor
  · intro pre rest v2 st v1 hscan hcl
    have hstep : te_cl_step cfg st "CONTENT-LENGTH" v2 =
        .error (.InvalidHeader "CONTENT-LENGTH", st.must_close) := by
      simp [te_cl_step, hcl]
    have : te_cl_scan cfg (pre ++ ("CONTENT-LENGTH", v2) :: rest) initScan =
        .error (.InvalidHeader "CONTENT-LENGTH", st.must_close) := by
      rw [te_cl_scan_append, hscan]
      simp only [te_cl_scan, hstep]
    simp only [message_set_body_reader, this]
  · intro hs hcount
    rcases hres : te_cl_scan cfg hs initScan with ⟨e, mc⟩ | st
    · exact ⟨e, mc, by simp only [message_set_body_reader, hres]⟩
    · exfalso
      have := te_cl_scan_ok_cl_count cfg hs initScan st hres
      simp only [initScan, Option.isSome_none, Bool.false_eq_true, if_false] at this
      omega

/-- Witness for C2 at concrete inputs: two equal Content-Length values are
rejected with InvalidHeader("CONTENT-LENGTH"), and two Content-Length
fields always yield an error. -/
theorem c2_witness :
    message_set_body_reader cfgTolerOff (1, 1)
        [("CONTENT-LENGTH", "7"), ("CONTENT-LENGTH", "7")] =
      .err (.InvalidHeader "CONTENT-LENGTH") false ∧
    ∃ e mc, message_set_body_reader cfgTolerOff (1, 1)
        [("CONTENT-LENGTH", "7"), ("CONTENT-LENGTH", "7")] = .err e mc := by
  constructor
  · exact (c2_duplicate_content_length cfgTolerOff (1, 1)).1
      [("CONTENT-LENGTH", "7")] [] "7" ⟨false, some "7", false⟩ "7" (by rfl) rfl
  · exact (c2_duplicate_content_length cfgTolerOff (1, 1)).2
      [("CONTENT-LENGTH", "7"), ("CONTENT-LENGTH", "7")] (by decide)

/-- Claim C3.  For a TRANSFER-ENCODING header whose value is (after
lowering) neither "chunked", "identity" nor empty, set_body_reader forces
must_close and raises UnsupportedTransferCoding for BOTH settings of
tolerate_dangerous_framing (the theorem takes no toggle hypothesis in that
conjunct); an empty value forces must_close and raises
UnsupportedTransferCoding exactly when the toggle is off, the toggle-on
case proceeding (here to the no-framing-signal EOF reader) with must_close
still true.  The surrounding headers are arbitrary non-framing headers. -/
theorem c3_transfer_coding_rejection (cfg : Cfg) (ver : Nat × Nat)
    (pre rest : List (String × String)) (v : String)
    (hpre : ∀ p ∈ pre, ¬ p.1 = "CONTENT-LENGTH" ∧ ¬ p.1 = "TRANSFER-ENCODING")
    (hrest : ∀ p ∈ rest, ¬ p.1 = "CONTENT-LENGTH" ∧ ¬ p.1 = "TRANSFER-ENCODING") :
    (¬ pyLower v = "chunked" → ¬ pyLower v = "identity" → ¬ pyLower v = "" →
      message_set_body_reader cfg ver (pre ++ ("TRANSFER-ENCODING", v) :: rest) =
        .err (.UnsupportedTransferCoding v) true) ∧
    (pyLower v = "" → cfg.tolerate_dangerous_framing = false →
      message_set_body_reader cfg ver (pre ++ ("TRANSFER-ENCODING", v) :: rest) =
        .err (.UnsupportedTransferCoding v) true) ∧
    (pyLower v = "" → cfg.tolerate_dangerous_framing = true →
      message_set_body_reader cfg ver (pre ++ ("TRANSFER-ENCODING", v) :: rest) =
        .reader .EOFReader true) := by
  have hpreScan : te_cl_scan cfg pre initScan = .ok initScan :=
    te_cl_scan_other cfg pre initScan hpre
  refine ⟨?_, ?_, ?_⟩
  · intro h1 h2 h3
    have hstep : te_cl_step cfg initScan "TRANSFER-ENCODING" v =
        .error (.UnsupportedTransferCoding v, true) := by
      simp [te_cl_step, h1, h2, h3]
    have hscan : te_cl_scan cfg (pre ++ ("TRANSFER-ENCODING", v) :: rest) initScan =
        .error (.UnsupportedTransferCoding v, true) := by
      rw [te_cl_scan_append, hpreScan]
      simp only [te_cl_scan, hstep]
    simp only [message_set_body_reader, hscan]
  · intro hv htol
    have hstep : te_cl_step cfg initScan "TRANSFER-ENCODING" v =
        .error (.UnsupportedTransferCoding v, true) := by
      simp [te_cl_step, hv, htol]
    have hscan : te_cl_scan cfg (pre ++ ("TRANSFER-ENCODING", v) :: rest) initScan =
        .error (.UnsupportedTransferCoding v, true) := by
      rw [te_cl_scan_append, hpreScan]
      simp only [te_cl_scan, hstep]
    simp only [message_set_body_reader, hscan]
  · intro hv htol
    have hstep : te_cl_step cfg initScan "TRANSFER-ENCODING" v =
        .ok ⟨false, none, true⟩ := by
      simp [te_cl_step, hv, htol, initScan]
    have hscan : te_cl_scan cfg (pre ++ ("TRANSFER-ENCODING", v) :: rest) initScan =
        .ok ⟨false, none, true⟩ := by
      rw [te_cl_scan_append, hpreScan]
      simp only [te_cl_scan, hstep]
      exact te_cl_scan_other cfg rest _ hrest
    simp [message_set_body_reader, hscan]

/-- Witness for C3 at concrete inputs: Transfer-Encoding "gzip, chunked" is
rejected with must_close forced even with the toggle ON, and an empty
value is rejected with the toggle off. -/
theorem c3_witness :
    message_set_body_reader cfgTolerOn (1, 1)
        [("HOST", "x"), ("TRANSFER-ENCODING", "gzip, chunked")] =
      .err (.UnsupportedTransferCoding "gzip, chunked") true ∧
    message_set_body_reader cfgTolerOff (1, 1) [("TRANSFER-ENCODING", "")] =
      .err (.UnsupportedTransferCoding "") true := by
  constructor
  · exact (c3_transfer_coding_rejection cfgTolerOn (1, 1) [("HOST", "x")] []
      "gzip, chunked" (by decide) (by decide)).1 (by decide) (by decide) (by decide)
  · exact (c3_transfer_coding_rejection cfgTolerOff (1, 1) [] [] ""
      (by decide) (by decide)).2.1 (by decide) rfl

/-- Claim C4.  A request whose headers contain neither CONTENT-LENGTH nor
TRANSFER-ENCODING resolves to the zero-length reader LengthReader(0)
(FixedLength(0)) — never the read-until-close EOFReader — with must_close
left false. -/
theorem c4_no_framing_signal_fixed_zero (cfg : Cfg) (ver : Nat × Nat)
    (hs : List (String × String))
    (h : ∀ p ∈ hs, ¬ p.1 = "CONTENT-LENGTH" ∧ ¬ p.1 = "TRANSFER-ENCODING") :
    request_set_body_reader cfg ver hs = .reader (.LengthReader 0) false := by
  have hscan := te_cl_scan_other cfg hs initScan h
  simp only [request_set_body_reader, message_set_body_reader, hscan]
  simp [initScan]

/-- Witness for C4 at a concrete input. -/
theorem c4_witness :
    request_set_body_reader cfgTolerOff (1, 1) [("HOST", "example")] =
      .reader (.LengthReader 0) false :=
  c4_no_framing_signal_fixed_zero cfgTolerOff (1, 1) [("HOST", "example")] (by decide)

/-- Claim C5.  For a message whose scan recorded exactly one CONTENT-LENGTH
value v and no chunked Transfer-Encoding: when v is a nonempty string of
decimal digits the framing is LengthReader (FixedLength) of its value;
any other v raises InvalidHeader("CONTENT-LENGTH"). -/
theorem c5_single_content_length (cfg : Cfg) (ver : Nat × Nat)
    (hs : List (String × String)) (st : ScanState) (v : String)
    (hscan : te_cl_scan cfg hs initScan = .ok st)
    (hcl : st.content_length = some v) (hch : st.chunked = false) :
    ((¬ v.data = [] ∧ v.data.all Char.isDigit = true) →
      message_set_body_reader cfg ver hs =
        .reader (.LengthReader (digitsVal v.data)) st.must_close) ∧
    (¬ (¬ v.data = [] ∧ v.data.all Char.isDigit = true) →
      message_set_body_reader cfg ver hs =
        .err (.InvalidHeader "CONTENT-LENGTH") st.must_close) := by
  constructor
  · rintro ⟨hne, hdig⟩
    have hnum : pyIsNumericLatin1 v = true := by
      simp only [pyIsNumericLatin1, String.toList, decide_eq_true_eq]
      refine ⟨hne, ?_⟩
      rw [List.all_eq_true] at hdig ⊢
      intro c hc
      simp only [decide_eq_true_eq]
      exact Or.inl (hdig c hc)
    have hpc : pyContentLength v = some (digitsVal v.data) := by
      simp [pyContentLength, hnum, String.toList, hdig]
    simp only [message_set_body_reader, hscan]
    simp [hch, hcl, hpc]
  · intro hbad
    have hpc : pyContentLength v = none := by
      by_cases hne : v.data = []
      · simp [pyContentLength, pyIsNumericLatin1, String.toList, hne]
      · have hdig : v.data.all Char.isDigit = false := by
          rcases Bool.eq_false_or_eq_true (v.data.all Char.isDigit) with ht | hf
          · exact absurd ⟨hne, ht⟩ hbad
          · exact hf
        simp [pyContentLength, String.toList, hdig]
    simp only [message_set_body_reader, hscan]
    simp [hch, hcl, hpc]

/-- Witness for C5 at the spec's concrete example: a single
Content-Length: 10 with no Transfer-Encoding yields LengthReader 10. -/
theorem c5_witness :
    message_set_body_reader cfgTolerOff (1, 1) [("CONTENT-LENGTH", "10")] =
      .reader (.LengthReader 10) false :=
  (c5_single_content_length cfgTolerOff (1, 1) [("CONTENT-LENGTH", "10")]
    ⟨false, some "10", false⟩ "10" (by rfl) rfl rfl).1 ⟨by decide, by decide⟩

/-- Claim C6, counterexample to the claim as stated.  The method "GETx"
contains a lowercase letter, yet parse_request_line accepts it (re.match
needs only the first 3 characters to lie in the class, and `$-_` in
METH_RE is a character range): the request line parses successfully and
does not raise InvalidRequestMethod. -/
theorem c6_counterexample :
    parse_request_line "GETx / HTTP/1.1" =
      .ok ⟨"GETX", "/", "/", "", "", (1, 1)⟩ ∧
    ¬ parse_request_line "GETx / HTTP/1.1" =
      .error (.InvalidRequestMethod "GETx") := by
  constructor
  · rfl
  · intro hcontra
    rw [show parse_request_line "GETx / HTTP/1.1" =
      .ok ⟨"GETX", "/", "/", "", "", (1, 1)⟩ from rfl] at hcontra
    exact Except.noConfusion hcontra

/-- A prefix characterization of METH_RE acceptance: the match succeeds
exactly when the token has at least 3 characters and its first three all
lie in the class `[A-Z0-9$-_.]` (whose `$-_` member is the range '$'..'_'). -/
theorem methReMatch_iff (m : String) :
    methReMatch m = true ↔
      3 ≤ m.data.length ∧ ∀ c ∈ m.data.take 3, methCharOk c = true := by
  simp only [methReMatch, String.toList, decide_eq_true_eq, le_min_iff]
  rcases hm : m.data with _ | ⟨a, _ | ⟨b, _ | ⟨c, rest⟩⟩⟩
  · simp [List.takeWhile]
  · by_cases pa : methCharOk a = true <;> simp [List.takeWhile, pa]
  · by_cases pa : methCharOk a = true <;> by_cases pb : methCharOk b = true <;>
      simp [List.takeWhile, pa, pb]
  · by_cases pa : methCharOk a = true <;> by_cases pb : methCharOk b = true <;>
      by_cases pc : methCharOk c = true <;>
      simp [List.takeWhile, pa, pb, pc]

/-- Claim C6 (amended).  For a request line splitting into exactly three
tokens, parse_request_line raises InvalidRequestMethod exactly when
METH_RE fails on the method token; and METH_RE accepts exactly the tokens
of length at least 3 whose FIRST THREE characters lie in the class
`[A-Z0-9$-_.]` — in which `$-_` is the character range 0x24-0x5F, so many
symbols beyond uppercase letters, digits and `$ - _ .` are accepted —
with all later characters unconstrained (re.match has no end anchor).  In
particular a 2-character method still fails, but a method containing a
lowercase letter after three class characters is accepted. -/
theorem c6_method_acceptance (line m u vtok : String)
    (hsplit : pySplitN2 line = [m, u, vtok]) :
    (parse_request_line line = .error (.InvalidRequestMethod m) ↔
      methReMatch m = false) ∧
    (methReMatch m = true ↔
      3 ≤ m.data.length ∧ ∀ c ∈ m.data.take 3, methCharOk c = true) := by
  refine ⟨?_, methReMatch_iff m⟩
  rcases Bool.eq_false_or_eq_true (methReMatch m) with ht | hf
  · constructor
    · intro hres
      exfalso
      rw [parse_request_line, hsplit] at hres
      simp only [ht, not_true_eq_false, if_false, split_request_uri] at hres
      rcases hv : versionReMatch vtok with _ | ⟨ma, mi⟩ <;> rw [hv] at hres <;>
        simp at hres
    · intro hfalse
      rw [ht] at hfalse
      cases hfalse
  · constructor
    · intro _
      exact hf
    · intro _
      rw [parse_request_line, hsplit]
      simp [hf]

/-- Witness for C6 at a concrete input: the 2-character method "GE" fails
with InvalidRequestMethod. -/
theorem c6_witness :
    parse_request_line "GE / HTTP/1.1" = .error (.InvalidRequestMethod "GE") :=
  (c6_method_acceptance "GE / HTTP/1.1" "GE" "/" "HTTP/1.1" rfl).1.mpr (by decide)

/-- Claim C7, counterexample to the claim as stated.  A Connection: close
header IS present in the list, must_close is unset and yet should_close
returns false for HTTP/1.1, because the loop of should_close stops at the
FIRST CONNECTION header (here keep-alive) rather than scanning the whole
list. -/
theorem c7_counterexample :
    should_close false [("CONNECTION", "keep-alive"), ("CONNECTION", "close")]
        (1, 1) = false ∧
    ("CONNECTION", "close") ∈
      [("CONNECTION", "keep-alive"), ("CONNECTION", "close")] := by
  constructor
  · rfl
  · decide

/-- When the first CONNECTION header's value strips and lowers to "close",
the loop decides to close. -/
theorem connectionDecision_close (hs : List (String × String)) (n v : String)
    (h : firstConnection hs = some (n, v)) (hc : pyStrip (pyLower v) = "close") :
    connectionDecision hs = some true := by
  induction hs with
  | nil => simp [firstConnection, List.find?] at h
  | cons p rest ih =>
    obtain ⟨hn, hv⟩ := p
    by_cases hh : hn = "CONNECTION"
    · rw [firstConnection, List.find?] at h
      rw [show ((hn, hv).1 == "CONNECTION") = true from by simpa using hh] at h
      simp only [Option.some.injEq, Prod.mk.injEq] at h
      rw [connectionDecision, if_pos hh]
      rw [← h.2] at hc
      simp [hc]
    · rw [firstConnection, List.find?] at h
      rw [show ((hn, hv).1 == "CONNECTION") = false from by simpa using hh] at h
      rw [connectionDecision, if_neg hh]
      exact ih h

/-- With no CONNECTION header at all the loop decides nothing. -/
theorem connectionDecision_none (hs : List (String × String))
    (h : firstConnection hs = none) : connectionDecision hs = none := by
  induction hs with
  | nil => rfl
  | cons p rest ih =>
    obtain ⟨hn, hv⟩ := p
    by_cases hh : hn = "CONNECTION"
    · rw [firstConnection, List.find?] at h
      rw [show ((hn, hv).1 == "CONNECTION") = true from by simpa using hh] at h
      cases h
    · rw [firstConnection, List.find?] at h
      rw [show ((hn, hv).1 == "CONNECTION") = false from by simpa using hh] at h
      rw [connectionDecision, if_neg hh]
      exact ih h

/-- Claim C7 (amended).  should_close is decided by the FIRST CONNECTION
header of the list: when that header's value (lowered, surrounding
whitespace stripped) is "close", should_close returns true regardless of
HTTP version and of must_close; and for an HTTP/1.1 message with no
CONNECTION header and must_close unset it returns false.  A
Connection: close header hidden behind an earlier CONNECTION header does
not force closure (see the counterexample). -/
theorem c7_should_close_first_connection (hs : List (String × String))
    (ver : Nat × Nat) :
    (∀ n v, firstConnection hs = some (n, v) → pyStrip (pyLower v) = "close" →
      ∀ mc, should_close mc hs ver = true) ∧
    (firstConnection hs = none → should_close false hs (1, 1) = false) := by
  constructor
  · intro n v hfind hc mc
    cases mc with
    | true => rfl
    | false =>
      rw [should_close, if_neg (by simp)]
      rw [connectionDecision_close hs n v hfind hc]
  · intro hnone
    rw [should_close, if_neg (by simp)]
    rw [connectionDecision_none hs hnone]
    rfl

/-- Witness for C7 at concrete inputs: a sole "Connection:  Close " header
closes even on HTTP/1.0, and a connectionless HTTP/1.1 header list does
not close. -/
theorem c7_witness :
    should_close false [("CONNECTION", " Close ")] (1, 0) = true ∧
    should_close false [("HOST", "x")] (1, 1) = false := by
  constructor
  · exact (c7_should_close_first_connection [("CONNECTION", " Close ")] (1, 0)).1
      "CONNECTION" " Close " rfl (by decide) false
  · exact (c7_should_close_first_connection [("HOST", "x")] (1, 1)).2 rfl

/-- Once a scheme has been derived (scheme_header set), the rest of the
pass succeeds unchanged exactly when every later derived scheme agrees,
and raises InvalidSchemeHeaders at the first disagreement. -/
theorem scheme_scan_locked (ssh : List (String × String)) :
    ∀ (l : List (String × String)) (st : SchemeState), st.scheme_header = true →
    ((∀ d ∈ derivedSchemes ssh l, d = st.scheme) → scheme_scan ssh l st = .ok st) ∧
    (¬ (∀ d ∈ derivedSchemes ssh l, d = st.scheme) →
      scheme_scan ssh l st = .error .InvalidSchemeHeaders) := by
  intro l
  induction l with
  | nil =>
    intro st hflag
    refine ⟨fun _ => rfl, fun hbad => ?_⟩
    exact absurd (by simp [derivedSchemes]) hbad
  | cons p rest ih =>
    intro st hflag
    obtain ⟨n, v⟩ := p
    rcases hlook : List.lookup n ssh with _ | sv
    · have hds : derivedSchemes ssh ((n, v) :: rest) = derivedSchemes ssh rest := by
        simp [derivedSchemes, List.filterMap_cons, hlook]
      have hstep : scheme_step ssh st n v = .ok st := by
        simp [scheme_step, hlook]
      rw [hds]
      refine ⟨fun hall => ?_, fun hbad => ?_⟩
      · rw [scheme_scan, hstep]
        exact (ih st hflag).1 hall
      · rw [scheme_scan, hstep]
        exact (ih st hflag).2 hbad
    · have hds : derivedSchemes ssh ((n, v) :: rest) =
          (if v = sv then "https" else "http") :: derivedSchemes ssh rest := by
        simp [derivedSchemes, List.filterMap_cons, hlook]
      by_cases hagr : (if v = sv then "https" else "http") = st.scheme
      · have hstep : scheme_step ssh st n v = .ok st := by
          simp [scheme_step, hlook, hflag, hagr]
        rw [hds]
        refine ⟨fun hall => ?_, fun hbad => ?_⟩
        · rw [scheme_scan, hstep]
          exact (ih st hflag).1 (fun d hd => hall d (List.mem_cons_of_mem _ hd))
        · rw [scheme_scan, hstep]
          refine (ih st hflag).2 (fun hall => hbad ?_)
          intro d hd
          rcases List.mem_cons.mp hd with hd0 | hdr
          · rw [hd0]; exact hagr
          · exact hall d hdr
      · have hstep : scheme_step ssh st n v = .error .InvalidSchemeHeaders := by
          simp [scheme_step, hlook, hflag, hagr]
        rw [hds]
        refine ⟨fun hall => ?_, fun _ => ?_⟩
        · exact absurd (hall _ (List.mem_cons_self _ _)) hagr
        · rw [scheme_scan, hstep]

/-- Claim C8.  Within one parse_headers pass the scheme is derived from the
FIRST header whose name matches a configured secure-scheme header (value
equal to the configured secure value gives "https", otherwise "http"):
with no matching header the scheme state is untouched; with at least one
match the pass succeeds with the scheme set (once) to the first match's
derivation exactly when every later match derives the same scheme, and
raises InvalidSchemeHeaders as soon as a later match disagrees. -/
theorem c8_first_scheme_header_wins (ssh : List (String × String))
    (hs : List (String × String)) (init : String) :
    (derivedSchemes ssh hs = [] →
      scheme_scan ssh hs ⟨init, false⟩ = .ok ⟨init, false⟩) ∧
    (∀ d ds, derivedSchemes ssh hs = d :: ds →
      ((∀ x ∈ ds, x = d) → scheme_scan ssh hs ⟨init, false⟩ = .ok ⟨d, true⟩) ∧
      (¬ (∀ x ∈ ds, x = d) →
        scheme_scan ssh hs ⟨init, false⟩ = .error .InvalidSchemeHeaders)) := by
  induction hs generalizing init with
  | nil =>
    refine ⟨fun _ => rfl, fun d ds hcontra => ?_⟩
    simp [derivedSchemes] at hcontra
  | cons p rest ih =>
    obtain ⟨n, v⟩ := p
    rcases hlook : List.lookup n ssh with _ | sv
    · have hds : derivedSchemes ssh ((n, v) :: rest) = derivedSchemes ssh rest := by
        simp [derivedSchemes, List.filterMap_cons, hlook]
      have hstep : scheme_step ssh ⟨init, false⟩ n v = .ok ⟨init, false⟩ := by
        simp [scheme_step, hlook]
      rw [hds]
      refine ⟨fun hnil => ?_, fun d ds heq => ?_⟩
      · rw [scheme_scan, hstep]
        exact (ih init).1 hnil
      · refine ⟨fun hall => ?_, fun hbad => ?_⟩
        · rw [scheme_scan, hstep]
          exact ((ih init).2 d ds heq).1 hall
        · rw [scheme_scan, hstep]
          exact ((ih init).2 d ds heq).2 hbad
    · have hds : derivedSchemes ssh ((n, v) :: rest) =
          (if v = sv then "https" else "http") :: derivedSchemes ssh rest := by
        simp [derivedSchemes, List.filterMap_cons, hlook]
      have hstep : scheme_step ssh ⟨init, false⟩ n v =
          .ok ⟨if v = sv then "https" else "http", true⟩ := by
        simp [scheme_step, hlook]
      refine ⟨fun hnil => ?_, fun d ds heq => ?_⟩
      · rw [hds] at hnil
        cases hnil
      · rw [hds] at heq
        simp only [List.cons.injEq] at heq
        obtain ⟨hd0, hds0⟩ := heq
        refine ⟨fun hall => ?_, fun hbad => ?_⟩
        · simp only [scheme_scan, hstep]
          rw [hd0]
          refine (scheme_scan_locked ssh rest ⟨d, true⟩ rfl).1 ?_
          intro x hx
          rw [hds0] at hx
          exact hall x hx
        · simp only [scheme_scan, hstep]
          rw [hd0]
          refine (scheme_scan_locked ssh rest ⟨d, true⟩ rfl).2 ?_
          intro hall
          refine hbad ?_
          intro x hx
          rw [← hds0] at hx
          exact hall x hx

/-- Witness for C8 at concrete inputs: two matching headers deriving
https then http conflict (InvalidSchemeHeaders); two agreeing matches
succeed with the scheme set once to https. -/
theorem c8_witness :
    scheme_scan [("X-FORWARDED-PROTO", "https")]
        [("X-FORWARDED-PROTO", "https"), ("X-FORWARDED-PROTO", "http")]
        ⟨"http", false⟩ = .error .InvalidSchemeHeaders ∧
    scheme_scan [("X-FORWARDED-PROTO", "https")]
        [("X-FORWARDED-PROTO", "https"), ("X-FORWARDED-PROTO", "https")]
        ⟨"http", false⟩ = .ok ⟨"https", true⟩ := by
  constructor
  · exact ((c8_first_scheme_header_wins [("X-FORWARDED-PROTO", "https")]
      [("X-FORWARDED-PROTO", "https"), ("X-FORWARDED-PROTO", "http")] "http").2
      "https" ["http"] (by rfl)).2 (by decide)
  · exact ((c8_first_scheme_header_wins [("X-FORWARDED-PROTO", "https")]
      [("X-FORWARDED-PROTO", "https"), ("X-FORWARDED-PROTO", "https")] "http").2
      "https" ["https"] (by rfl)).1 (by decide)

/-- A buffer whose first 4 bytes are the header terminator keeps them after
appending. -/
theorem startsTerm_append (a b : List Char) (h : startsTerm a = true) :
    startsTerm (a ++ b) = true := by
  simp only [startsTerm, decide_eq_true_eq] at h ⊢
  have hlen : 4 ≤ a.length := by
    have hc := congrArg List.length h
    simp [List.length_take] at hc
    omega
  rw [List.take_append_eq_append_take,
    show 4 - a.length = 0 from by omega]
  simp [h]

/-- Containment of the header terminator is preserved by appending. -/
theorem hasTerm_append (a b : List Char) (h : hasTerm a = true) :
    hasTerm (a ++ b) = true := by
  induction a with
  | nil => simp [hasTerm] at h
  | cons c rest ih =>
    rw [hasTerm, Bool.or_eq_true] at h
    rcases h with hst | hrest
    · rw [List.cons_append, hasTerm, Bool.or_eq_true]
      exact Or.inl (by rw [← List.cons_append]; exact startsTerm_append _ b hst)
    · rw [List.cons_append, hasTerm, Bool.or_eq_true]
      exact Or.inr (ih hrest)

/-- A buffer starting with CRLF keeps starting with CRLF after appending. -/
theorem startsCrlf_append (a b : List Char) (h : startsCrlf a = true) :
    startsCrlf (a ++ b) = true := by
  simp only [startsCrlf, decide_eq_true_eq] at h ⊢
  have hlen : 2 ≤ a.length := by
    have hc := congrArg List.length h
    simp [List.length_take] at hc
    omega
  rw [List.take_append_eq_append_take,
    show 2 - a.length = 0 from by omega]
  simp [h]

/-- Whenever the header-accumulation loop returns a buffer, every pull it
performed kept the buffer within the bound, so the result never exceeds
the larger of the initial buffer and the bound. -/
theorem header_accum_ok_bound (bound : Int) :
    ∀ (chunks : List (List Char)) (data res : List Char),
    header_accum bound chunks data = .ok res →
    (res.length : Int) ≤ max (data.length : Int) bound := by
  intro chunks
  induction chunks with
  | nil =>
    intro data res h
    rw [header_accum] at h
    by_cases hfound : hasTerm data = true ∨ startsCrlf data = true
    · rw [if_pos hfound] at h
      simp only [Except.ok.injEq] at h
      subst h
      exact le_max_left _ _
    · rw [if_neg hfound] at h
      simp at h
  | cons c cs ih =>
    intro data res h
    rw [header_accum] at h
    by_cases hfound : hasTerm data = true ∨ startsCrlf data = true
    · rw [if_pos hfound] at h
      simp only [Except.ok.injEq] at h
      subst h
      exact le_max_left _ _
    · rw [if_neg hfound] at h
      by_cases hcnil : c = []
      · rw [if_pos hcnil] at h
        simp at h
      · rw [if_neg hcnil] at h
        by_cases hgrow : bound < (((data ++ c).length : Nat) : Int)
        · rw [if_pos hgrow] at h
          simp at h
        · rw [if_neg hgrow] at h
          have hrec := ih (data ++ c) res h
          have hle : (((data ++ c).length : Nat) : Int) ≤ bound := not_lt.mp hgrow
          have hres : (res.length : Int) ≤ bound := le_trans hrec (max_le hle le_rfl)
          exact le_trans hres (le_max_right _ _)

/-- When the whole incoming byte stream never contains the header
terminator (and never starts with a bare CRLF) and its total size exceeds
the bound, the loop raises LimitRequestHeaders("max buffer headers") —
header memory is bounded even though the peer never sends the
terminator. -/
theorem header_accum_exceeds (bound : Int) :
    ∀ (chunks : List (List Char)) (data : List Char),
    hasTerm (data ++ chunks.flatten) = false →
    startsCrlf (data ++ chunks.flatten) = false →
    (∀ c ∈ chunks, ¬ c = []) →
    ¬ chunks = [] →
    bound < ((data ++ chunks.flatten).length : Int) →
    header_accum bound chunks data =
      .error (.LimitRequestHeaders "max buffer headers") := by
  intro chunks
  induction chunks with
  | nil => intro data _ _ _ habs _; exact absurd rfl habs
  | cons c cs ih =>
    intro data hterm hcrlf hne _ hbig
    have htermd : hasTerm data = false := by
      rcases Bool.eq_false_or_eq_true (hasTerm data) with ht | hf
      · rw [hasTerm_append data (c :: cs).flatten ht] at hterm
        cases hterm
      · exact hf
    have hcrlfd : startsCrlf data = false := by
      rcases Bool.eq_false_or_eq_true (startsCrlf data) with ht | hf
      · rw [startsCrlf_append data (c :: cs).flatten ht] at hcrlf
        cases hcrlf
      · exact hf
    rw [header_accum]
    rw [if_neg (by simp [htermd, hcrlfd])]
    have hcne : ¬ c = [] := hne c (List.mem_cons_self _ _)
    rw [if_neg hcne]
    by_cases hgrow : bound < (((data ++ c).length : Nat) : Int)
    · rw [if_pos hgrow]
    · rw [if_neg hgrow]
      have hassoc : (data ++ c) ++ cs.flatten = data ++ (c :: cs).flatten := by
        simp [List.flatten_cons, List.append_assoc]
      have hcsne : ¬ cs = [] := by
        intro hnil
        subst hnil
        simp only [List.flatten_cons, List.flatten_nil, List.append_nil,
          ← List.append_assoc] at hbig
        exact hgrow hbig
      refine ih (data ++ c) ?_ ?_ ?_ hcsne ?_
      · rw [hassoc]; exact hterm
      · rw [hassoc]; exact hcrlf
      · exact fun x hx => hne x (List.mem_cons_of_mem _ hx)
      · rw [hassoc]; exact hbig

/-- Claim C10.  The limit the header-accumulation loop of Request.parse
enforces is max_buffer_headers = limit_request_fields * (F + 2) + 4 with F
the normalized limit_request_field_size when nonzero and 8190 otherwise,
fixed at construction; a successful accumulation never returns a buffer
beyond max(initial residue, bound); and when the byte stream never
delivers the blank-line terminator while its total size passes the bound,
the pull that crosses the bound raises
LimitRequestHeaders("max buffer headers"). -/
theorem c10_header_buffer_bounded (cfg : Cfg) (d0 : List Char)
    (chunks : List (List Char)) :
    max_buffer_headers cfg = eff_limit_request_fields cfg *
      ((if eff_limit_request_field_size cfg = 0 then DEFAULT_MAX_HEADERFIELD_SIZE
        else eff_limit_request_field_size cfg) + 2) + 4 ∧
    (∀ res, header_accum (max_buffer_headers cfg) chunks d0 = .ok res →
      (res.length : Int) ≤ max (d0.length : Int) (max_buffer_headers cfg)) ∧
    (hasTerm (d0 ++ chunks.flatten) = false →
      startsCrlf (d0 ++ chunks.flatten) = false →
      (∀ c ∈ chunks, ¬ c = []) → ¬ chunks = [] →
      max_buffer_headers cfg < ((d0 ++ chunks.flatten).length : Int) →
      header_accum (max_buffer_headers cfg) chunks d0 =
        .error (.LimitRequestHeaders "max buffer headers")) := by
  refine ⟨rfl, ?_, ?_⟩
  · intro res h
    exact header_accum_ok_bound (max_buffer_headers cfg) chunks d0 res h
  · intro h1 h2 h3 h4 h5
    exact header_accum_exceeds (max_buffer_headers cfg) chunks d0 h1 h2 h3 h4 h5

/-- Witness for C10 at a concrete input: with limits of one field of size
one the bound is 1 * (1 + 2) + 4 = 7, and pulling 8 terminator-free bytes
raises LimitRequestHeaders("max buffer headers"). -/
theorem c10_witness :
    header_accum (max_buffer_headers cfgTiny)
        [['a', 'a', 'a', 'a', 'a', 'a', 'a', 'a']] [] =
      .error (.LimitRequestHeaders "max buffer headers") :=
  (c10_header_buffer_bounded cfgTiny [] [['a', 'a', 'a', 'a', 'a', 'a', 'a', 'a']]).2.2
    (by decide) (by decide) (by decide) (by decide) (by decide)

/-- Claim C9, counterexample to the claim as stated.  The port token "5_6"
is not a base-10 integer, so the claimed acceptance condition rejects the
line, yet parse_proxy_protocol accepts it with client_port 56: Python's
int() conversion (line 358) tolerates underscores between digits. -/
theorem c9_counterexample :
    parse_proxy_protocol "PROXY TCP4 192.168.0.1 192.168.0.11 5_6 443" =
      .ok ⟨"TCP4", "192.168.0.1", 56, "192.168.0.11", 443⟩ ∧
    proxyLineSpecValid "PROXY TCP4 192.168.0.1 192.168.0.11 5_6 443" = false := by
  constructor
  · rfl
  · rfl

/-- Claim C9 (amended).  parse_proxy_protocol rejects any line that does
not split into exactly 6 whitespace tokens; for a 6-token line it accepts
if and only if the protocol tag is exactly TCP4 (with both addresses valid
IPv4 literals) or TCP6 (with both addresses valid IPv6 literals) and each
port token converts under Python int() — which also tolerates a leading
sign and underscores between digits, slightly beyond plain base-10
integers — to a value in [0, 65535]; every violation raises
InvalidProxyLine, and on success ProxyInfo carries the protocol, the
client (source) address and port, and the proxy (destination) address and
port taken from the tokens. -/
theorem c9_proxy_acceptance (line : String) :
    (¬ (pySplitWs line).length = 6 →
      parse_proxy_protocol line = .error (.InvalidProxyLine line)) ∧
    (∀ b0 proto sa da sp dp, pySplitWs line = [b0, proto, sa, da, sp, dp] →
      ((∃ info, parse_proxy_protocol line = .ok info) ↔
        (((proto = "TCP4" ∧ ipv4Valid sa = true ∧ ipv4Valid da = true) ∨
          (proto = "TCP6" ∧ ipv6Valid sa = true ∧ ipv6Valid da = true)) ∧
         (∃ n1, pyIntDec sp = some n1 ∧ 0 ≤ n1 ∧ n1 ≤ 65535) ∧
         (∃ n2, pyIntDec dp = some n2 ∧ 0 ≤ n2 ∧ n2 ≤ 65535))) ∧
      (∀ info, parse_proxy_protocol line = .ok info →
        ∃ n1 n2, pyIntDec sp = some n1 ∧ pyIntDec dp = some n2 ∧
          info = ⟨proto, sa, n1, da, n2⟩)) := by
  have hne46 : ("TCP4" : String) ≠ "TCP6" := by decide
  constructor
  · intro hlen
    rcases hsp : pySplitWs line with _ | ⟨a, _ | ⟨b, _ | ⟨c1, _ | ⟨d1, _ | ⟨e1, _ | ⟨f1, _ | g1⟩⟩⟩⟩⟩⟩
    · simp [parse_proxy_protocol, hsp]
    · simp [parse_proxy_protocol, hsp]
    · simp [parse_proxy_protocol, hsp]
    · simp [parse_proxy_protocol, hsp]
    · simp [parse_proxy_protocol, hsp]
    · simp [parse_proxy_protocol, hsp]
    · exact absurd (by rw [hsp]; rfl) hlen
    · simp [parse_proxy_protocol, hsp]
  · intro b0 proto sa da sp dp hsp
    simp only [parse_proxy_protocol, hsp]
    by_cases hproto : proto = "TCP4" ∨ proto = "TCP6"
    · rw [if_neg (not_not_intro hproto)]
      by_cases h4bad : proto = "TCP4" ∧ ¬ (ipv4Valid sa = true ∧ ipv4Valid da = true)
      · rw [if_pos h4bad]
        constructor
        · constructor
          · rintro ⟨info, hinfo⟩
            exact Except.noConfusion hinfo
          · rintro ⟨⟨hp4, hsa, hda⟩ | ⟨hp6, _, _⟩, _, _⟩
            · exact absurd ⟨hsa, hda⟩ h4bad.2
            · exact absurd (h4bad.1.symm.trans hp6) hne46
        · intro info hinfo
          exact Except.noConfusion hinfo
      · rw [if_neg h4bad]
        by_cases h6bad : proto = "TCP6" ∧ ¬ (ipv6Valid sa = true ∧ ipv6Valid da = true)
        · rw [if_pos h6bad]
          constructor
          · constructor
            · rintro ⟨info, hinfo⟩
              exact Except.noConfusion hinfo
            · rintro ⟨⟨hp4, _, _⟩ | ⟨hp6, hsa, hda⟩, _, _⟩
              · exact absurd (hp4.symm.trans h6bad.1) hne46
              · exact absurd ⟨hsa, hda⟩ h6bad.2
          · intro info hinfo
            exact Except.noConfusion hinfo
        · rw [if_neg h6bad]
          have hfam : (proto = "TCP4" ∧ ipv4Valid sa = true ∧ ipv4Valid da = true) ∨
              (proto = "TCP6" ∧ ipv6Valid sa = true ∧ ipv6Valid da = true) := by
            rcases hproto with hp4 | hp6
            · left
              refine ⟨hp4, ?_⟩
              by_contra hbad
              rcases Decidable.not_and_iff_or_not.mp hbad with hs | hd
              · exact h4bad ⟨hp4, fun hp => hs hp.1⟩
              · exact h4bad ⟨hp4, fun hp => hd hp.2⟩
            · right
              refine ⟨hp6, ?_⟩
              by_contra hbad
              rcases Decidable.not_and_iff_or_not.mp hbad with hs | hd
              · exact h6bad ⟨hp6, fun hp => hs hp.1⟩
              · exact h6bad ⟨hp6, fun hp => hd hp.2⟩
          rcases hn1 : pyIntDec sp with _ | n1
          · simp only [hn1]
            constructor
            · constructor
              · rintro ⟨info, hinfo⟩
                exact Except.noConfusion hinfo
              · rintro ⟨_, ⟨n1, hn1', _⟩, _⟩
                exact Option.noConfusion hn1'
            · intro info hinfo
              exact Except.noConfusion hinfo
          · rcases hn2 : pyIntDec dp with _ | n2
            · simp only [hn1, hn2]
              constructor
              · constructor
                · rintro ⟨info, hinfo⟩
                  exact Except.noConfusion hinfo
                · rintro ⟨_, _, ⟨n2, hn2', _⟩⟩
                  exact Option.noConfusion hn2'
              · intro info hinfo
                exact Except.noConfusion hinfo
            · simp only [hn1, hn2]
              by_cases hrange : 0 ≤ n1 ∧ n1 ≤ 65535 ∧ 0 ≤ n2 ∧ n2 ≤ 65535
              · rw [if_neg (not_not_intro hrange)]
                constructor
                · constructor
                  · intro _
                    exact ⟨hfam, ⟨n1, rfl, hrange.1, hrange.2.1⟩,
                      ⟨n2, rfl, hrange.2.2.1, hrange.2.2.2⟩⟩
                  · intro _
                    exact ⟨⟨proto, sa, n1, da, n2⟩, rfl⟩
                · intro info hinfo
                  simp only [Except.ok.injEq] at hinfo
                  exact ⟨n1, n2, rfl, rfl, hinfo.symm⟩
              · rw [if_pos hrange]
                constructor
                · constructor
                  · rintro ⟨info, hinfo⟩
                    exact Except.noConfusion hinfo
                  · rintro ⟨_, ⟨m1, hm1, hm1a, hm1b⟩, ⟨m2, hm2, hm2a, hm2b⟩⟩
                    rw [Option.some.injEq] at hm1 hm2
                    subst hm1
                    subst hm2
                    exact (hrange ⟨hm1a, hm1b, hm2a, hm2b⟩).elim
                · intro info hinfo
                  exact Except.noConfusion hinfo
    · rw [if_pos hproto]
      constructor
      · constructor
        · rintro ⟨info, hinfo⟩
          exact Except.noConfusion hinfo
        · rintro ⟨⟨hp4, _, _⟩ | ⟨hp6, _, _⟩, _, _⟩
          · exact (hproto (Or.inl hp4)).elim
          · exact (hproto (Or.inr hp6)).elim
      · intro info hinfo
        exact Except.noConfusion hinfo

/-- Witness for C9 at the spec's concrete example line: the PROXY line
parses to the expected ProxyInfo. -/
theorem c9_witness :
    parse_proxy_protocol "PROXY TCP4 192.168.0.1 192.168.0.11 56324 443" =
      .ok ⟨"TCP4", "192.168.0.1", 56324, "192.168.0.11", 443⟩ := by
  have h := (c9_proxy_acceptance "PROXY TCP4 192.168.0.1 192.168.0.11 56324 443").2
    "PROXY" "TCP4" "192.168.0.1" "192.168.0.11" "56324" "443" (by rfl)
  rcases h.1.mpr ⟨Or.inl ⟨rfl, by rfl, by rfl⟩,
      ⟨56324, by rfl, by decide, by decide⟩,
      ⟨443, by rfl, by decide, by decide⟩⟩ with ⟨info, hinfo⟩
  rcases h.2 info hinfo with ⟨n1, n2, hn1, hn2, hform⟩
  rw [hinfo, hform]
  rw [show pyIntDec "56324" = some 56324 from rfl, Option.some.injEq] at hn1
  rw [show pyIntDec "443" = some 443 from rfl, Option.some.injEq] at hn2
  rw [← hn1, ← hn2]
